import Mathlib

/-!
Shallow embedding of the "Lead to Opportunity Speed" pipeline
(`main.py` and `dashboard.py`).

Timestamps are modelled as integers (seconds on a common timezone-naive
clock, matching the `tz_localize(None)` normalization in both scripts);
durations (`speed` in the source) are integer differences, and the mean of
the retained durations is a rational number, matching the exact value of
pandas' `Series.mean` on timedeltas up to the source's sub-second
resolution.  `pd.sort_values` uses an unstable sort; the embedding uses
insertion sort, which agrees with it on everything except the order of
rows with equal `event_created_at`, and no statement below depends on
that tie order.
-/

namespace LeadSpeed

/-- A lead row fetched from the `leads_data` table: `email` and a
normalized `created_at` timestamp (`get_supabase_leads`). -/
structure Lead where
  email : String
  created_at : Int
deriving DecidableEq, Repr

/-- One attendance record produced by the event fetcher: the attendee's
email (absent when the calendar entry has no `email` key, mirroring
`attendee.get('email')` returning `None`) and the creation timestamp of
the event. -/
structure Attendance where
  attendee_email : Option String
  event_created_at : Int
deriving DecidableEq, Repr

/-- A row of `merged_df`: the inner join of leads and attendances on
`email == attendee_email` (`pd.merge(..., how='inner')`). -/
structure MergedRow where
  email : String
  created_at : Int
  event_created_at : Int
deriving DecidableEq, Repr

/-- `first_call_df['speed'] = event_created_at - created_at`. -/
def MergedRow.speed (r : MergedRow) : Int :=
  r.event_created_at - r.created_at

/-- `pd.merge(df_leads, df_events, left_on='email', right_on='attendee_email',
how='inner')`: one merged row per (lead, attendance) pair with equal email
key.  A `None` attendee email never equals a lead's string email. -/
def mergeLeadsEvents (leads : List Lead) (atts : List Attendance) : List MergedRow :=
  leads.flatMap fun l =>
    (atts.filter fun a => decide (a.attendee_email = some l.email)).map
      fun a => ⟨l.email, l.created_at, a.event_created_at⟩

/-- The sort key of `merged_df.sort_values(by='event_created_at',
ascending=True)`. -/
def eventLe (r s : MergedRow) : Prop :=
  r.event_created_at ≤ s.event_created_at

instance : DecidableRel eventLe :=
  fun r s => inferInstanceAs (Decidable (r.event_created_at ≤ s.event_created_at))

instance : IsTotal MergedRow eventLe :=
  ⟨fun a b => le_total a.event_created_at b.event_created_at⟩

instance : IsTrans MergedRow eventLe :=
  ⟨fun _ _ _ h h' => le_trans h h'⟩

/-- `merged_df.sort_values(by='event_created_at', ascending=True)`. -/
def sortByEvent (rows : List MergedRow) : List MergedRow :=
  rows.insertionSort eventLe

/-- `drop_duplicates(subset='email', keep='first')`: keep the first row of
each email, skipping rows whose email was already seen. -/
def dropDuplicatesKeepFirst (seen : List String) : List MergedRow → List MergedRow
  | [] => []
  | r :: rs =>
      if r.email ∈ seen then dropDuplicatesKeepFirst seen rs
      else r :: dropDuplicatesKeepFirst (r.email :: seen) rs

/-- `first_call_df`: sort the whole join by `event_created_at` ascending,
then keep the first occurrence of each email. -/
def selectFirstCalls (rows : List MergedRow) : List MergedRow :=
  dropDuplicatesKeepFirst [] (sortByEvent rows)

/-- `first_call_df = first_call_df[first_call_df['speed'] >= pd.Timedelta(0)]`
applied to the deduplicated join. -/
def validCalls (leads : List Lead) (atts : List Attendance) : List MergedRow :=
  (selectFirstCalls (mergeLeadsEvents leads atts)).filter fun r => decide (0 ≤ r.speed)

/-- The durations of a list of rows, as rationals. -/
def speedsQ (rows : List MergedRow) : List ℚ :=
  rows.map fun r => (r.speed : ℚ)

/-- `first_call_df['speed'].mean()`: sum of the durations divided by their
count. -/
def meanSpeed (rows : List MergedRow) : ℚ :=
  (speedsQ rows).sum / (rows.length : ℚ)

/-- Outcome of one run of the business logic.  The three early-return
branches of `main` (and the three warning branches of the dashboard) are
distinguished; `result` carries `first_call_df` after the non-negative
filter together with `average_speed`. -/
inductive AggregateResult where
  | insufficientData
  | noMatches
  | noValidMatches
  | result (records : List MergedRow) (mean_duration : ℚ)
deriving DecidableEq, Repr

/-- Number of retained conversions (`len(first_call_df)` in the success
branch, `0` in every early-return branch). -/
def AggregateResult.sampleCount : AggregateResult → Nat
  | .result records _ => records.length
  | _ => 0

/-- The retained `MatchedConversion` rows (empty in every early-return
branch). -/
def AggregateResult.records : AggregateResult → List MergedRow
  | .result records _ => records
  | _ => []

/-- The mean duration, when one was computed. -/
def AggregateResult.meanDuration : AggregateResult → Option ℚ
  | .result _ m => some m
  | _ => none

/-- The business logic shared by `main` (main.py 134-162) and the
`st.button` block (dashboard.py 85-104): empty-input guard, inner join,
sort + first-occurrence dedup, empty-join guard, non-negative duration
filter, empty-valid guard, mean. -/
def aggregate (leads : List Lead) (atts : List Attendance) : AggregateResult :=
  if leads.isEmpty || atts.isEmpty then .insufficientData
  else if (selectFirstCalls (mergeLeadsEvents leads atts)).isEmpty then .noMatches
  else if (validCalls leads atts).isEmpty then .noValidMatches
  else .result (validCalls leads atts) (meanSpeed (validCalls leads atts))

/-! ### The event fetcher (`get_google_calendar_events`) -/

/-- One entry of an event's `attendees` list: optional `email`, and the
`self` / `resource` flags (`attendee.get('self', False)`,
`attendee.get('resource', False)`). -/
structure GAttendee where
  email : Option String
  self : Bool
  resource : Bool
deriving DecidableEq, Repr

/-- One calendar event as returned by the service: optional `created`
timestamp and an attendee list (absent list modelled as `[]`, matching
`event.get('attendees', [])`). -/
structure GEvent where
  created : Option Int
  attendees : List GAttendee
deriving DecidableEq, Repr

/-- What the calendar service does on one fetch: either some service call
raises an `HttpError`, or the calls succeed and yield the flattened
`all_events` list accumulated over all calendars. -/
inductive CalendarResponse where
  | httpError (msg : String)
  | ok (events : List GEvent)
deriving DecidableEq, Repr

/-- The event-processing loop of main.py (lines 104-117): skip events
without a `created` timestamp, and emit one record per attendee that is
neither `self` nor a `resource`, with its (possibly absent) email. -/
def processEventsMain (events : List GEvent) : List Attendance :=
  events.flatMap fun e =>
    match e.created with
    | none => []
    | some t =>
        (e.attendees.filter fun a => !a.self && !a.resource).map
          fun a => ⟨a.email, t⟩

/-- The event-processing loop of dashboard.py (lines 60-65): an event
contributes only when both `created` and `attendees` are truthy; each
non-self, non-resource attendee then yields one record. -/
def processEventsDash (events : List GEvent) : List Attendance :=
  events.flatMap fun e =>
    match e.created with
    | none => []
    | some t =>
        if e.attendees.isEmpty then []
        else
          (e.attendees.filter fun a => !a.self && !a.resource).map
            fun a => ⟨a.email, t⟩

/-- `get_google_calendar_events` of main.py, as a function of the calendar
service's behaviour.  Its `try` block catches only `HttpError` and returns
an empty frame; with a non-empty `all_events` whose processing produces no
records, `pd.DataFrame([])` has no columns and the
`df_events['event_created_at']` access raises an uncaught `KeyError`
(`Except.error`). -/
def get_google_calendar_events_main : CalendarResponse → Except String (List Attendance)
  | .httpError _ => .ok []
  | .ok events =>
      if events.isEmpty then .ok []
      else
        if (processEventsMain events).isEmpty then
          .error "KeyError: event_created_at"
        else .ok (processEventsMain events)

/-- `get_google_calendar_events` of dashboard.py: the same processing, but
its `try` block catches every `Exception`, so the empty-frame `KeyError`
is also converted into an empty result with a diagnostic. -/
def get_google_calendar_events_dash : CalendarResponse → Except String (List Attendance)
  | .httpError _ => .ok []
  | .ok events =>
      if (processEventsDash events).isEmpty then .ok []
      else .ok (processEventsDash events)

/-! ### The presenter (dashboard.py 109-114) -/

/-- Python's `//` on non-integral numbers: floor division. -/
def pyFloorDiv (a b : ℚ) : ℚ := (⌊a / b⌋ : ℚ)

/-- Python's `%`: `a - b * (a // b)`. -/
def pyMod (a b : ℚ) : ℚ := a - b * pyFloorDiv a b

/-- The dashboard's rendering of an outcome: on success,
`days = int(total_seconds // 86400)`,
`hours = int((total_seconds % 86400) // 3600)`, and the lead count; the
warning branches render no metric. -/
def presentDashboard : AggregateResult → Option (Int × Int × Nat)
  | .result records mean_duration =>
      some (⌊pyFloorDiv mean_duration 86400⌋,
            ⌊pyFloorDiv (pyMod mean_duration 86400) 3600⌋,
            records.length)
  | _ => none

/-- The spec's description of the rendering (§4.4): whole days
`floor(total_seconds / 86400)` and remaining whole hours
`floor((total_seconds mod 86400) / 3600)`, stated directly with the
mathematical floor and remainder. -/
def specRenderMean : AggregateResult → Option (Int × Int × Nat)
  | .result records m =>
      some (⌊m / 86400⌋,
            ⌊(m - 86400 * ((⌊m / 86400⌋ : Int) : ℚ)) / 3600⌋,
            records.length)
  | _ => none

/-! ### Spec-side selection (§4.3 step 2), for the refinement claim -/

/-- The spec's grouping: all joined rows carrying a given email. -/
def specGroup (rows : List MergedRow) (e : String) : List MergedRow :=
  rows.filter fun r => decide (r.email = e)

/-- The spec's per-group candidate: sort the email's group by
`event_created_at` ascending and take the first row. -/
def specEarliestOfGroup (rows : List MergedRow) (e : String) : Option MergedRow :=
  (sortByEvent (specGroup rows e)).head?

/-! ### Helper lemmas -/

lemma mem_of_mem_dropDuplicates (l : List MergedRow) :
    ∀ seen r, r ∈ dropDuplicatesKeepFirst seen l → r ∈ l := by
  induction l with
  | nil => intro seen r h; simp [dropDuplicatesKeepFirst] at h
  | cons x xs ih =>
      intro seen r h
      simp only [dropDuplicatesKeepFirst] at h
      by_cases hx : x.email ∈ seen
      · rw [if_pos hx] at h
        exact List.mem_cons_of_mem _ (ih _ _ h)
      · rw [if_neg hx] at h
        rcases List.mem_cons.1 h with h1 | h1
        · exact h1 ▸ List.mem_cons_self _ _
        · exact List.mem_cons_of_mem _ (ih _ _ h1)

lemma email_not_seen_of_mem_dropDuplicates (l : List MergedRow) :
    ∀ seen r, r ∈ dropDuplicatesKeepFirst seen l → r.email ∉ seen := by
  induction l with
  | nil => intro seen r h; simp [dropDuplicatesKeepFirst] at h
  | cons x xs ih =>
      intro seen r h
      simp only [dropDuplicatesKeepFirst] at h
      by_cases hx : x.email ∈ seen
      · rw [if_pos hx] at h
        exact ih _ _ h
      · rw [if_neg hx] at h
        rcases List.mem_cons.1 h with h1 | h1
        · exact h1 ▸ hx
        · intro hmem
          exact ih _ _ h1 (List.mem_cons_of_mem _ hmem)

lemma dropDuplicates_min (l : List MergedRow) (hs : l.Pairwise eventLe) :
    ∀ seen r s, r ∈ dropDuplicatesKeepFirst seen l → s ∈ l → s.email = r.email →
      r.event_created_at ≤ s.event_created_at := by
  induction l with
  | nil => intro seen r s hr; simp [dropDuplicatesKeepFirst] at hr
  | cons x xs ih =>
      intro seen r s hr hsm heq
      have hpair := List.pairwise_cons.1 hs
      simp only [dropDuplicatesKeepFirst] at hr
      by_cases hx : x.email ∈ seen
      · rw [if_pos hx] at hr
        rcases List.mem_cons.1 hsm with h1 | h1
        · exact absurd (heq ▸ h1 ▸ hx) (email_not_seen_of_mem_dropDuplicates xs seen r hr)
        · exact ih hpair.2 seen r s hr h1 heq
      · rw [if_neg hx] at hr
        rcases List.mem_cons.1 hr with h1 | h1
        · subst h1
          rcases List.mem_cons.1 hsm with h2 | h2
          · exact h2 ▸ le_refl _
          · exact hpair.1 s h2
        · rcases List.mem_cons.1 hsm with h2 | h2
          · exfalso
            apply email_not_seen_of_mem_dropDuplicates xs (x.email :: seen) r h1
            rw [← heq, h2]
            exact List.mem_cons_self _ _
          · exact ih hpair.2 _ r s h1 h2 heq

lemma exists_mem_dropDuplicates (l : List MergedRow) :
    ∀ seen e, (∃ r ∈ l, r.email = e) →
      e ∈ seen ∨ ∃ r ∈ dropDuplicatesKeepFirst seen l, r.email = e := by
  induction l with
  | nil => intro seen e h; simp at h
  | cons x xs ih =>
      intro seen e h
      simp only [dropDuplicatesKeepFirst]
      by_cases hx : x.email ∈ seen
      · rw [if_pos hx]
        rcases h with ⟨r, hr, hre⟩
        rcases List.mem_cons.1 hr with h1 | h1
        · exact Or.inl (hre ▸ h1 ▸ hx)
        · exact ih seen e ⟨r, h1, hre⟩
      · rw [if_neg hx]
        rcases h with ⟨r, hr, hre⟩
        rcases List.mem_cons.1 hr with h1 | h1
        · exact Or.inr ⟨x, List.mem_cons_self _ _, by rw [← h1, hre]⟩
        · rcases ih (x.email :: seen) e ⟨r, h1, hre⟩ with h2 | ⟨r', hr', hre'⟩
          · rcases List.mem_cons.1 h2 with h3 | h3
            · exact Or.inr ⟨x, List.mem_cons_self _ _, h3.symm⟩
            · exact Or.inl h3
          · exact Or.inr ⟨r', List.mem_cons_of_mem _ hr', hre'⟩

lemma sortByEvent_perm (l : List MergedRow) : List.Perm (sortByEvent l) l :=
  List.perm_insertionSort eventLe l

lemma sortByEvent_sorted (l : List MergedRow) : (sortByEvent l).Pairwise eventLe :=
  List.sorted_insertionSort eventLe l

lemma mem_of_mem_selectFirstCalls {l : List MergedRow} {r : MergedRow}
    (h : r ∈ selectFirstCalls l) : r ∈ l :=
  (sortByEvent_perm l).subset (mem_of_mem_dropDuplicates _ _ _ h)

lemma selectFirstCalls_min {l : List MergedRow} {r : MergedRow}
    (h : r ∈ selectFirstCalls l) :
    ∀ s ∈ l, s.email = r.email → r.event_created_at ≤ s.event_created_at := by
  intro s hs heq
  have hs' : s ∈ sortByEvent l := (sortByEvent_perm l).mem_iff.2 hs
  exact dropDuplicates_min _ (sortByEvent_sorted l) [] r s h hs' heq

lemma selectFirstCalls_cover {l : List MergedRow} {e : String}
    (h : ∃ r ∈ l, r.email = e) : ∃ r ∈ selectFirstCalls l, r.email = e := by
  have h' : ∃ r ∈ sortByEvent l, r.email = e := by
    rcases h with ⟨r, hr, hre⟩
    exact ⟨r, (sortByEvent_perm l).mem_iff.2 hr, hre⟩
  rcases exists_mem_dropDuplicates _ [] e h' with h0 | h0
  · simp at h0
  · exact h0

lemma mem_mergeLeadsEvents {leads : List Lead} {atts : List Attendance} {r : MergedRow} :
    r ∈ mergeLeadsEvents leads atts ↔
      ∃ l ∈ leads, ∃ a ∈ atts, a.attendee_email = some l.email ∧
        r = ⟨l.email, l.created_at, a.event_created_at⟩ := by
  simp only [mergeLeadsEvents, List.mem_flatMap, List.mem_map, List.mem_filter,
    decide_eq_true_eq]
  constructor
  · rintro ⟨l, hl, a, ⟨ha, hmail⟩, rfl⟩
    exact ⟨l, hl, a, ha, hmail, rfl⟩
  · rintro ⟨l, hl, a, ha, hmail, rfl⟩
    exact ⟨l, hl, a, ⟨ha, hmail⟩, rfl⟩

lemma filter_some_email (atts : List Attendance) (s : String) :
    ((atts.filter fun x => x.attendee_email.isSome).filter
        fun a => decide (a.attendee_email = some s)) =
      atts.filter fun a => decide (a.attendee_email = some s) := by
  rw [List.filter_filter]
  apply List.filter_congr
  intro a _
  cases h : a.attendee_email <;> simp [h]

lemma aggregate_cases (leads : List Lead) (atts : List Attendance) :
    aggregate leads atts = .result (validCalls leads atts) (meanSpeed (validCalls leads atts)) ∨
      ((aggregate leads atts).records = [] ∧ (aggregate leads atts).sampleCount = 0 ∧
        (aggregate leads atts).meanDuration = none) := by
  unfold aggregate
  split_ifs <;>
    simp [AggregateResult.records, AggregateResult.sampleCount, AggregateResult.meanDuration]

lemma records_aggregate_sub {leads : List Lead} {atts : List Attendance} {r : MergedRow}
    (h : r ∈ (aggregate leads atts).records) : r ∈ validCalls leads atts := by
  rcases aggregate_cases leads atts with hagg | ⟨hrec, _, _⟩
  · rw [hagg] at h
    simpa [AggregateResult.records] using h
  · rw [hrec] at h
    simp at h

/-! ### Claim theorems -/

/-- Claim C3: every MatchedConversion present in the final records of the
aggregate has duration ≥ 0; an attendance created strictly before its
matched lead never appears in the final records (the filter discards only
`speed < 0`, so a zero duration is retained — the witness exhibits a
retained zero-duration record). -/
theorem C3_duration_nonneg (leads : List Lead) (atts : List Attendance) (r : MergedRow)
    (h : r ∈ (aggregate leads atts).records) : 0 ≤ r.speed := by
  have hv : r ∈ validCalls leads atts := records_aggregate_sub h
  simp only [validCalls, List.mem_filter, decide_eq_true_eq] at hv
  exact hv.2

/-- Witness for C3 at a concrete input with duration exactly zero: the
record is retained and its duration is non-negative. -/
theorem C3_duration_nonneg_witness : 0 ≤ (⟨"a", 5, 5⟩ : MergedRow).speed :=
  C3_duration_nonneg [⟨"a", 5⟩] [⟨some "a", 5⟩] ⟨"a", 5, 5⟩ (by decide)

/-- Claim C4: with an empty lead sequence or an empty attendance sequence
the pipeline immediately reports insufficient data with sample count 0 and
no retained records (and hence no mean), without attempting the join. -/
theorem C4_empty_inputs (leads : List Lead) (atts : List Attendance)
    (h : leads = [] ∨ atts = []) :
    aggregate leads atts = .insufficientData ∧
      (aggregate leads atts).sampleCount = 0 ∧
      (aggregate leads atts).records = [] ∧
      (aggregate leads atts).meanDuration = none := by
  have hempty : (leads.isEmpty || atts.isEmpty) = true := by
    rcases h with h | h <;> simp [h]
  unfold aggregate
  rw [if_pos hempty]
  exact ⟨rfl, rfl, rfl, rfl⟩

/-- Witness for C4: empty leads with a non-empty attendance list. -/
theorem C4_empty_inputs_witness :
    aggregate [] [⟨some "a", 5⟩] = .insufficientData ∧
      (aggregate [] [⟨some "a", 5⟩]).sampleCount = 0 ∧
      (aggregate [] [⟨some "a", 5⟩]).records = [] ∧
      (aggregate [] [⟨some "a", 5⟩]).meanDuration = none :=
  C4_empty_inputs [] [⟨some "a", 5⟩] (Or.inl rfl)

/-- Claim C7: the join matches a lead to an attendance exactly on string
equality of the emails, with no case folding and no trimming; whenever no
attendance email is string-equal to a lead email, the join is empty and
the aggregate's sample count is 0.  The witness instantiates this with
pairs differing only in letter case or surrounding whitespace. -/
theorem C7_exact_email_match (leads : List Lead) (atts : List Attendance)
    (h : ∀ l ∈ leads, ∀ a ∈ atts, a.attendee_email ≠ some l.email) :
    mergeLeadsEvents leads atts = [] ∧ (aggregate leads atts).sampleCount = 0 := by
  have hmerge : mergeLeadsEvents leads atts = [] := by
    unfold mergeLeadsEvents
    rw [List.flatMap_eq_nil_iff]
    intro l hl
    rw [List.map_eq_nil_iff, List.filter_eq_nil_iff]
    intro a ha
    simp only [decide_eq_true_eq]
    exact h l hl a ha
  refine ⟨hmerge, ?_⟩
  unfold aggregate
  split_ifs with h1 h2 h3
  · rfl
  · rfl
  · rfl
  · exfalso
    apply h2
    rw [hmerge]
    rfl

/-- Witness for C7: the only candidate pairs differ in letter case
(`A@x.com` vs `a@x.com`) or in surrounding whitespace, and the sample
count is 0. -/
theorem C7_exact_email_match_witness :
    mergeLeadsEvents [⟨"A@x.com", 0⟩, ⟨" b@x.com", 0⟩]
        [⟨some "a@x.com", 5⟩, ⟨some "b@x.com", 5⟩] = [] ∧
      (aggregate [⟨"A@x.com", 0⟩, ⟨" b@x.com", 0⟩]
        [⟨some "a@x.com", 5⟩, ⟨some "b@x.com", 5⟩]).sampleCount = 0 :=
  C7_exact_email_match _ _ (by decide)

/-- Claim C2 (code bug): the spec requires every calendar-fetch error to be
caught at the stage boundary and converted into an empty sequence plus a
diagnostic.  The CLI fetcher violates this: its `try` catches only
`HttpError`, and on a successful response with one event whose only
attendee is the organizer (`self`), processing yields no records and the
column access on the empty frame raises an uncaught `KeyError`.  The
dashboard fetcher, whose `except Exception` is a true stage boundary,
returns the empty sequence on the same input. -/
theorem C2_fetch_crash :
    get_google_calendar_events_main
        (.ok [⟨some 3, [⟨some "boss@x.com", true, false⟩]⟩]) =
      .error "KeyError: event_created_at" ∧
    get_google_calendar_events_dash
        (.ok [⟨some 3, [⟨some "boss@x.com", true, false⟩]⟩]) = .ok [] := by
  constructor <;> rfl

/-- Claim C9: there is a calendar-service response with at least one event
but no qualifying attendance record (here: one event that has a creation
timestamp but an empty attendee list) on which the CLI event fetcher
raises an uncaught error — the missing-column access on the empty record
set — instead of returning an empty sequence. -/
theorem C9_cli_uncaught_keyerror :
    ([⟨some 0, []⟩] : List GEvent).length = 1 ∧
    processEventsMain [⟨some 0, []⟩] = [] ∧
    get_google_calendar_events_main (.ok [⟨some 0, []⟩]) =
      .error "KeyError: event_created_at" :=
  ⟨rfl, rfl, rfl⟩

/-- Claim C10: the event fetcher emits one attendance record for every
non-self, non-resource attendee of an event that has a creation
timestamp — also when the attendee has no email field, in which case the
record carries an absent `attendee_email`; and records whose
`attendee_email` is absent can never join any lead (dropping them does not
change the join). -/
theorem C10_absent_email_emitted (events : List GEvent) (e : GEvent) (a : GAttendee)
    (t : Int) (he : e ∈ events) (hc : e.created = some t) (ha : a ∈ e.attendees)
    (hs : a.self = false) (hr : a.resource = false) :
    (⟨a.email, t⟩ : Attendance) ∈ processEventsMain events ∧
      ∀ (leads : List Lead) (atts : List Attendance),
        mergeLeadsEvents leads (atts.filter fun x => x.attendee_email.isSome) =
          mergeLeadsEvents leads atts := by
  constructor
  · simp only [processEventsMain, List.mem_flatMap]
    refine ⟨e, he, ?_⟩
    rw [hc]
    simp only [List.mem_map, List.mem_filter]
    exact ⟨a, ⟨ha, by simp [hs, hr]⟩, rfl⟩
  · intro leads atts
    induction leads with
    | nil => rfl
    | cons l rest ih =>
        simp only [mergeLeadsEvents, List.flatMap_cons] at ih ⊢
        rw [filter_some_email, ih]

/-- Witness for C10: one event with one attendee that has no email field;
the record with absent `attendee_email` is emitted, and filtering out
absent-email records does not change the join against a concrete lead. -/
theorem C10_absent_email_emitted_witness :
    (⟨none, 7⟩ : Attendance) ∈ processEventsMain [⟨some 7, [⟨none, false, false⟩]⟩] ∧
      mergeLeadsEvents [⟨"a", 0⟩]
          ([⟨none, 7⟩].filter fun x => x.attendee_email.isSome) =
        mergeLeadsEvents [⟨"a", 0⟩] [⟨none, 7⟩] :=
  ⟨(C10_absent_email_emitted [⟨some 7, [⟨none, false, false⟩]⟩] ⟨some 7, [⟨none, false, false⟩]⟩
      ⟨none, false, false⟩ 7 (by decide) rfl (by decide) rfl rfl).1,
   (C10_absent_email_emitted [⟨some 7, [⟨none, false, false⟩]⟩] ⟨some 7, [⟨none, false, false⟩]⟩
      ⟨none, false, false⟩ 7 (by decide) rfl (by decide) rfl rfl).2 [⟨"a", 0⟩] [⟨none, 7⟩]⟩

/-- Claim C5: the implementation's candidate selection — sort the whole
joined set by `event_created_at` ascending, then keep the first occurrence
of each email — is equivalent to the spec's per-group description: every
selected row has minimal `event_created_at` within its email's group,
every email of the joined set is selected, and the selected row carries
the same `event_created_at` as the spec's per-group earliest row. -/
theorem C5_selection_refines_spec (rows : List MergedRow) :
    (∀ r ∈ selectFirstCalls rows, ∀ s ∈ rows, s.email = r.email →
        r.event_created_at ≤ s.event_created_at) ∧
    (∀ e : String, (∃ r ∈ rows, r.email = e) →
        ∃ r ∈ selectFirstCalls rows, r.email = e) ∧
    (∀ r ∈ selectFirstCalls rows, ∃ m, specEarliestOfGroup rows r.email = some m ∧
        m.event_created_at = r.event_created_at) := by
  refine ⟨fun r hr s hs heq => selectFirstCalls_min hr s hs heq,
          fun e he => selectFirstCalls_cover he, ?_⟩
  intro r hr
  have hrrows : r ∈ rows := mem_of_mem_selectFirstCalls hr
  have hrg : r ∈ specGroup rows r.email := by
    simp [specGroup, List.mem_filter, hrrows]
  have hrs : r ∈ sortByEvent (specGroup rows r.email) :=
    (sortByEvent_perm _).mem_iff.2 hrg
  cases hlist : sortByEvent (specGroup rows r.email) with
  | nil => rw [hlist] at hrs; simp at hrs
  | cons m rest =>
      refine ⟨m, by simp [specEarliestOfGroup, hlist], ?_⟩
      have hm : m ∈ sortByEvent (specGroup rows r.email) := by
        rw [hlist]; exact List.mem_cons_self _ _
      have hmg : m ∈ specGroup rows r.email := (sortByEvent_perm _).subset hm
      have hmrows : m ∈ rows := List.mem_of_mem_filter hmg
      have hmemail : m.email = r.email := by
        have hf := (List.mem_filter.1 hmg).2
        simpa using hf
      have h1 : r.event_created_at ≤ m.event_created_at :=
        selectFirstCalls_min hr m hmrows hmemail
      have h2 : m.event_created_at ≤ r.event_created_at := by
        have hsorted := sortByEvent_sorted (specGroup rows r.email)
        rw [hlist] at hsorted hrs
        rcases List.mem_cons.1 hrs with h3 | h3
        · rw [h3]
        · exact (List.pairwise_cons.1 hsorted).1 r h3
      exact le_antisymm h2 h1

/-- Witness for C5 at a concrete joined set: the selected row's
`event_created_at` is below that of the other row of its group. -/
theorem C5_selection_refines_spec_witness :
    (⟨"a", 0, 3⟩ : MergedRow).event_created_at ≤
      (⟨"a", 0, 7⟩ : MergedRow).event_created_at :=
  (C5_selection_refines_spec [⟨"a", 0, 7⟩, ⟨"a", 0, 3⟩]).1 ⟨"a", 0, 3⟩ (by decide)
    ⟨"a", 0, 7⟩ (by decide) rfl

/-- Counterexample to claim C1 as stated: the lead `a` (created at 10) has
two matching attendances, one at 5 (negative duration) and one at 20
(duration 10 ≥ 0).  The claim demands a retained conversion at the minimum
nonnegative-duration match (20), and exclusion only when every match
precedes the lead; the code instead keeps the overall-earliest match (5)
and then drops the lead entirely, so the sample count is 0 although a
match with nonnegative duration exists. -/
theorem C1_counterexample :
    (aggregate [⟨"a", 10⟩] [⟨some "a", 5⟩, ⟨some "a", 20⟩]).sampleCount = 0 ∧
    (aggregate [⟨"a", 10⟩] [⟨some "a", 5⟩, ⟨some "a", 20⟩]).records = [] ∧
    (⟨some "a", 20⟩ : Attendance) ∈ [(⟨some "a", 5⟩ : Attendance), ⟨some "a", 20⟩] ∧
    0 ≤ (20 : Int) - 10 := by
  refine ⟨by decide, by decide, by decide, by decide⟩

/-- Claim C1 as amended: every retained MatchedConversion has nonnegative
duration and its `event_created_at` is the minimum among ALL of that
email's matching attendances (not merely those with nonnegative duration);
consequently a lead is excluded whenever its overall-earliest match
precedes the lead's creation, even if a later match does not. -/
theorem C1_earliest_overall (leads : List Lead) (atts : List Attendance) (r : MergedRow)
    (h : r ∈ (aggregate leads atts).records) :
    0 ≤ r.speed ∧ ∀ a ∈ atts, a.attendee_email = some r.email →
      r.event_created_at ≤ a.event_created_at := by
  have hv : r ∈ validCalls leads atts := records_aggregate_sub h
  simp only [validCalls, List.mem_filter, decide_eq_true_eq] at hv
  obtain ⟨hsel, hspeed⟩ := hv
  refine ⟨hspeed, ?_⟩
  intro a ha hmail
  have hrm : r ∈ mergeLeadsEvents leads atts := mem_of_mem_selectFirstCalls hsel
  rcases mem_mergeLeadsEvents.1 hrm with ⟨l, hl, a', ha', hm', hreq⟩
  have hrow : (⟨l.email, l.created_at, a.event_created_at⟩ : MergedRow) ∈
      mergeLeadsEvents leads atts :=
    mem_mergeLeadsEvents.2 ⟨l, hl, a, ha, by rw [hmail, hreq], rfl⟩
  have hmin := selectFirstCalls_min hsel _ hrow (by rw [hreq])
  simpa using hmin

/-- Witness for the amended C1: the retained record sits at the earliest
match (5), below the later match at 9, with nonnegative duration. -/
theorem C1_earliest_overall_witness :
    0 ≤ (⟨"a", 0, 5⟩ : MergedRow).speed ∧
      (⟨"a", 0, 5⟩ : MergedRow).event_created_at ≤
        (⟨some "a", 9⟩ : Attendance).event_created_at :=
  ⟨(C1_earliest_overall [⟨"a", 0⟩] [⟨some "a", 5⟩, ⟨some "a", 9⟩] ⟨"a", 0, 5⟩ (by decide)).1,
   (C1_earliest_overall [⟨"a", 0⟩] [⟨some "a", 5⟩, ⟨some "a", 9⟩] ⟨"a", 0, 5⟩ (by decide)).2
     ⟨some "a", 9⟩ (by decide) rfl⟩

/-- Claim C6: whenever the aggregate retains a non-empty set of
candidates, the reported mean duration is the sum of the individual
durations — taken as whole durations, not split into components — divided
by the sample count. -/
theorem C6_mean_is_sum_div_count (leads : List Lead) (atts : List Attendance)
    (h : 0 < (aggregate leads atts).sampleCount) :
    (aggregate leads atts).meanDuration =
      some ((speedsQ (aggregate leads atts).records).sum /
        ((aggregate leads atts).sampleCount : ℚ)) := by
  rcases aggregate_cases leads atts with hagg | ⟨_, hcount, _⟩
  · rw [hagg]
    simp only [AggregateResult.meanDuration, AggregateResult.records,
      AggregateResult.sampleCount]
    rfl
  · rw [hcount] at h
    exact absurd h (lt_irrefl 0)

/-- Witness for C6 at the spec's scenario (one lead, one attendance 2.5
days later). -/
theorem C6_mean_is_sum_div_count_witness :
    (aggregate [⟨"a", 0⟩] [⟨some "a", 216000⟩]).meanDuration =
      some ((speedsQ (aggregate [⟨"a", 0⟩] [⟨some "a", 216000⟩]).records).sum /
        ((aggregate [⟨"a", 0⟩] [⟨some "a", 216000⟩]).sampleCount : ℚ)) :=
  C6_mean_is_sum_div_count [⟨"a", 0⟩] [⟨some "a", 216000⟩] (by decide)

/-- Claim C8: on every outcome with a positive sample count, the
dashboard's rendering (Python `int(total_seconds // 86400)` and
`int((total_seconds % 86400) // 3600)`) agrees with the spec's formulas
`days = floor(total_seconds / 86400)` and
`hours = floor((total_seconds mod 86400) / 3600)`; in particular a mean of
2.5 days (216000 seconds) renders as 2 days and 12 hours. -/
theorem C8_render_days_hours :
    (∀ res : AggregateResult, 0 < res.sampleCount →
        presentDashboard res = specRenderMean res) ∧
    presentDashboard (.result [⟨"a", 0, 216000⟩] 216000) = some (2, 12, 1) := by
  constructor
  · intro res hres
    cases res with
    | insufficientData => simp [AggregateResult.sampleCount] at hres
    | noMatches => simp [AggregateResult.sampleCount] at hres
    | noValidMatches => simp [AggregateResult.sampleCount] at hres
    | result records m =>
        simp only [presentDashboard, specRenderMean, pyFloorDiv, pyMod, Int.floor_intCast]
  · simp only [presentDashboard, pyFloorDiv, pyMod, Int.floor_intCast]
    norm_num

/-- Witness for C8: the rendering agrees with the spec's formulas on the
2.5-day outcome. -/
theorem C8_render_days_hours_witness :
    presentDashboard (.result [⟨"a", 0, 216000⟩] 216000) =
      specRenderMean (.result [⟨"a", 0, 216000⟩] 216000) :=
  C8_render_days_hours.1 (.result [⟨"a", 0, 216000⟩] 216000) (by decide)

end LeadSpeed
